import Mathlib

/-!
# Verification of the stronghold.rs locked-memory and client layers

Shallow embedding of the repository fragments:

* `src/engine/new_runtime/src/memories/file_memory.rs` — the `FileMemory`
  locked-memory backend, embedded with an explicit file-system state
  (an association list from file names to contents and permission mode) and
  with the randomness of `random_vec` / `random_fname` passed as explicit
  parameters.
* the client layer (`Stronghold`, vault store, store, synchroniser), whose
  implementation is not part of the fragment: those operations are modelled
  from the specification (and, where the specification is silent or conflicts,
  from the repository's own test `src/client/src/tests/interface_tests.rs`,
  which is part of the fragment and hence authoritative).

Bytes are `Nat` (values below 256 in the program); machine-level overflow does
not arise in the embedded fragment.
-/

set_option autoImplicit false

namespace Stronghold

abbrev Byte := Nat

/-! ## Association lists (used for the file system, router, vaults and stores) -/

/-- First value bound to `key`, or `none`. -/
def lookupA {κ α : Type} [DecidableEq κ] : List (κ × α) → κ → Option α
  | [], _ => none
  | (k, v) :: rest, key => if k = key then some v else lookupA rest key

/-- Rebind `key` to `v` in place, appending if absent. -/
def setA {κ α : Type} [DecidableEq κ] : List (κ × α) → κ → α → List (κ × α)
  | [], key, v => [(key, v)]
  | (k, w) :: rest, key, v =>
    if k = key then (key, v) :: rest else (k, w) :: setA rest key v

/-- Remove every binding of `key`. -/
def removeA {κ α : Type} [DecidableEq κ] : List (κ × α) → κ → List (κ × α)
  | [], _ => []
  | (k, w) :: rest, key =>
    if k = key then removeA rest key else (k, w) :: removeA rest key

instance {ε α : Type} [DecidableEq ε] [DecidableEq α] : DecidableEq (Except ε α) := fun a b =>
  match a, b with
  | .ok x, .ok y =>
    if h : x = y then .isTrue (by rw [h]) else .isFalse (by intro hc; cases hc; exact h rfl)
  | .error x, .error y =>
    if h : x = y then .isTrue (by rw [h]) else .isFalse (by intro hc; cases hc; exact h rfl)
  | .ok _, .error _ => .isFalse (by intro hc; cases hc)
  | .error _, .ok _ => .isFalse (by intro hc; cases hc)

/-! ## The file-system state

`file_memory.rs` drives `std::fs`: create, read, write, chmod, remove.  A file
carries its byte contents and its POSIX permission mode; the process is the
(non-root) owner of every file it touches, so a read requires the owner-read
bit `0o400` and a write the owner-write bit `0o200`, while `chmod`
(`fs::set_permissions`) needs only ownership. -/

inductive IoErrorKind where
  | NotFound
  | PermissionDenied
  deriving DecidableEq

structure FileState where
  contents : List Byte
  mode : Nat
  deriving DecidableEq

abbrev FS := List (String × FileState)

def findFile (fs : FS) (name : String) : Option FileState := lookupA fs name

def setFile (fs : FS) (name : String) (st : FileState) : FS := setA fs name st

def removeFile (fs : FS) (name : String) : FS := removeA fs name

/-- Owner-read permission bit (`0o400`). -/
def canRead (mode : Nat) : Bool := mode.testBit 8

/-- Owner-write permission bit (`0o200`). -/
def canWrite (mode : Nat) : Bool := mode.testBit 7

/-- Mode bits a freshly created file starts with before the code locks it
(`File::create` under an ordinary umask). -/
def defaultCreateMode : Nat := 0o600

/-- `fs::set_permissions` after `fs::metadata`: fails only if the file is
absent; `chmod` by the owner ignores the current permission bits. -/
def setModeFS (fs : FS) (name : String) (mode : Nat) : Except IoErrorKind FS :=
  match findFile fs name with
  | none => .error .NotFound
  | some st => .ok (setFile fs name { st with mode := mode })

/-- `fs::read`: open for reading and return the contents. -/
def openRead (fs : FS) (name : String) : Except IoErrorKind (List Byte) :=
  match findFile fs name with
  | none => .error .NotFound
  | some st => if canRead st.mode then .ok st.contents else .error .PermissionDenied

/-- `File::create`: truncate an existing file (owner-write bit required) or
create a fresh empty one. -/
def createFile (fs : FS) (name : String) : Except IoErrorKind FS :=
  match findFile fs name with
  | none => .ok (setFile fs name ⟨[], defaultCreateMode⟩)
  | some st =>
    if canWrite st.mode then .ok (setFile fs name ⟨[], st.mode⟩)
    else .error .PermissionDenied

/-- `Write::write_all` on the handle returned by `File::create`. -/
def writeAll (fs : FS) (name : String) (data : List Byte) : Except IoErrorKind FS :=
  match findFile fs name with
  | none => .error .NotFound
  | some st => .ok (setFile fs name { st with contents := st.contents ++ data })

/-- `fs::remove_file`. -/
def removeFileFS (fs : FS) (name : String) : Except IoErrorKind FS :=
  match findFile fs name with
  | none => .error .NotFound
  | some _ => .ok (removeFile fs name)

/-! ## `FileMemory` (`src/engine/new_runtime/src/memories/file_memory.rs`) -/

inductive MemoryError where
  | ZeroSizedNotAllowed
  | FileSystemError
  | AllocationFailed
  deriving DecidableEq

/-- Modelled from the spec: `utils::xor` (in `utils.rs`, not part of the
fragment) — "the on-disk bytes `d` satisfy `d XOR n = payload`" with a pad of
equal length; bytewise XOR over the first `size` positions. -/
def xorBytes (a b : List Byte) (size : Nat) : List Byte :=
  (List.range size).map (fun i => a.getD i 0 ^^^ b.getD i 0)

/-- Modelled from the spec: `Buffer` (in `memories/buffer.rs`, not part of the
fragment) — the in-memory unlocked container; `Buffer::alloc(&data, size)`
holds the first `size` bytes of `data` and dereferences to that byte view. -/
structure Buffer where
  bytes : List Byte
  deriving DecidableEq

def Buffer.alloc (data : List Byte) (size : Nat) : Buffer := ⟨data.take size⟩

structure FileMemory where
  fname : String
  noise : List Byte
  size : Nat
  deriving DecidableEq

namespace FileMemory

/-- `FileMemory::lock_file`: drive the permission bits to `0o000`. -/
def lock_file (fm : FileMemory) (fs : FS) : Except IoErrorKind FS :=
  setModeFS fs fm.fname 0o000

/-- `FileMemory::set_write_only`: mode `0o200`. -/
def set_write_only (fm : FileMemory) (fs : FS) : Except IoErrorKind FS :=
  setModeFS fs fm.fname 0o200

/-- `FileMemory::set_read_only`: mode `0o400`. -/
def set_read_only (fm : FileMemory) (fs : FS) : Except IoErrorKind FS :=
  setModeFS fs fm.fname 0o400

/-- `FileMemory::write_to_file`: widen to write-only (a missing file is
tolerated), recreate the file, write the payload, then lock to `0o000`.
The state is threaded even on error. -/
def write_to_file (fm : FileMemory) (payload : List Byte) (fs : FS) :
    Except IoErrorKind Unit × FS :=
  let fs1 :=
    match fm.set_write_only fs with
    | .ok fsW => fsW
    | .error _ => fs
  match createFile fs1 fm.fname with
  | .error e => (.error e, fs1)
  | .ok fs2 =>
    match writeAll fs2 fm.fname payload with
    | .error e => (.error e, fs2)
    | .ok fs3 =>
      match fm.lock_file fs3 with
      | .error e => (.error e, fs3)
      | .ok fs4 => (.ok (), fs4)

/-- `FileMemory::read_file`: widen to read-only, read, lock back to `0o000`. -/
def read_file (fm : FileMemory) (fs : FS) : Except IoErrorKind (List Byte) × FS :=
  match fm.set_read_only fs with
  | .error e => (.error e, fs)
  | .ok fs1 =>
    match openRead fs1 fm.fname with
    | .error e => (.error e, fs1)
    | .ok content =>
      match fm.lock_file fs1 with
      | .error e => (.error e, fs1)
      | .ok fs2 => (.ok content, fs2)

/-- `FileMemory::alloc`: refuse `size = 0`, mask the payload with the noise
pad, and write the masked bytes to a fresh random file name.  The noise pad
(`random_vec(size)`) and the file name (`new_fname()`) are the two random
draws, passed here explicitly. -/
def alloc (payload : List Byte) (size : Nat) (noise : List Byte) (fname : String)
    (fs : FS) : Except MemoryError FileMemory × FS :=
  if size = 0 then (.error .ZeroSizedNotAllowed, fs)
  else
    let data := xorBytes payload noise size
    let fm : FileMemory := ⟨fname, noise, size⟩
    match fm.write_to_file data fs with
    | (.ok _, fs') => (.ok fm, fs')
    | (.error _, fs') => (.error .FileSystemError, fs')

/-- `LockedMemory::unlock` for `FileMemory`: refuse size zero, read the masked
file, unmask with the noise pad, and move the plaintext into a `Buffer`. -/
def unlock (fm : FileMemory) (fs : FS) : Except MemoryError Buffer × FS :=
  if fm.size = 0 then (.error .ZeroSizedNotAllowed, fs)
  else
    match fm.read_file fs with
    | (.error _, fs') => (.error .FileSystemError, fs')
    | (.ok data, fs') =>
      (.ok (Buffer.alloc (xorBytes data fm.noise fm.size) fm.size), fs')

/-- `FileMemory::clear_and_delete_file`: widen to write-only, truncate,
overwrite with `size` zero bytes, and remove the file. -/
def clear_and_delete_file (fm : FileMemory) (fs : FS) : Except IoErrorKind Unit × FS :=
  match fm.set_write_only fs with
  | .error e => (.error e, fs)
  | .ok fs1 =>
    match createFile fs1 fm.fname with
    | .error e => (.error e, fs1)
    | .ok fs2 =>
      match writeAll fs2 fm.fname (List.replicate fm.size 0) with
      | .error e => (.error e, fs2)
      | .ok fs3 =>
        match removeFileFS fs3 fm.fname with
        | .error e => (.error e, fs3)
        | .ok fs4 => (.ok (), fs4)

/-- `Zeroize::zeroize` for `FileMemory`: best-effort
`clear_and_delete_file` (its error is discarded), then `self.fname.clear()`
and `self.size.zeroize()`.  The `noise` field is not touched by the source. -/
def zeroize (fm : FileMemory) (fs : FS) : FileMemory × FS :=
  ({ fname := "", noise := fm.noise, size := 0 }, (fm.clear_and_delete_file fs).2)

/-- `LockedMemory::update` for `FileMemory`: `self` is consumed, a completely
new file is allocated for the new payload, and the old `FileMemory` is dropped
(running `zeroize`) when `update` returns — on the success and on the error
path alike. -/
def update (fm : FileMemory) (payload : Buffer) (size : Nat) (noise : List Byte)
    (fname : String) (fs : FS) : Except MemoryError FileMemory × FS :=
  let (r, fs1) := alloc payload.bytes size noise fname fs
  (r, (fm.zeroize fs1).2)

end FileMemory

/-- A file that is at rest between operations: present with permission mode
`0o000`, so that opening it for reading or for writing fails with
`PermissionDenied` (the property checked by the `file_security` test). -/
def atRestLocked (fs : FS) (name : String) : Prop :=
  (findFile fs name).map FileState.mode = some 0 ∧
  openRead fs name = .error .PermissionDenied ∧
  createFile fs name = .error .PermissionDenied

/-! ## Client layer (modelled from the spec)

The `Stronghold` interface implementation is not part of the fragment — only
its test suite `src/client/src/tests/interface_tests.rs` is.  The state and
operations below are modelled from the specification sections 3, 4.2, 4.4 and
4.6, keyed by client path (the spec's `ClientId` is a deterministic content
hash of the path, so path equality and id equality coincide). -/

/-- Modelled from the spec: a caller `Location`, either generic or counter. -/
inductive Location where
  | generic (vaultPath recordPath : String)
  | counter (vaultPath : String) (ctr : Nat)
  deriving DecidableEq

/-- A `Location` resolves to a record key inside its vault: the record path,
or the counter ordinal. -/
abbrev RecordKey := String ⊕ Nat

def Location.vaultPath : Location → String
  | .generic v _ => v
  | .counter v _ => v

def Location.key : Location → RecordKey
  | .generic _ r => Sum.inl r
  | .counter _ c => Sum.inr c

/-- Modelled from the spec: a vault's records — payload bytes and the
`revoked` flag, keyed by the resolved record key. -/
abbrev VaultRecords := List (RecordKey × (List Byte × Bool))

/-- Modelled from the spec: `{ keystore, vaults, store }` client state; the
store is the flat non-secret key-value map. -/
structure ClientState where
  vaults : List (String × VaultRecords)
  store : List (Location × List Byte)
  deriving DecidableEq

def emptyClient : ClientState := ⟨[], []⟩

/-- Modelled from the spec: the router — the client map plus the currently
targeted client. -/
structure SystemState where
  clients : List (String × ClientState)
  target : String
  deriving DecidableEq

/-- Modelled from the spec: `init_stronghold_system(client_path)`. -/
def initSystem (clientPath : String) : SystemState :=
  ⟨[(clientPath, emptyClient)], clientPath⟩

/-- Modelled from the spec: `write_to_vault` — creates the vault if absent,
appends or overwrites the addressed record, not revoked. -/
def writeToVault (sys : SystemState) (loc : Location) (data : List Byte) : SystemState :=
  let cs := (lookupA sys.clients sys.target).getD emptyClient
  let recs := (lookupA cs.vaults loc.vaultPath).getD []
  let recs' := setA recs loc.key (data, false)
  { sys with
      clients := setA sys.clients sys.target
        { cs with vaults := setA cs.vaults loc.vaultPath recs' } }

/-- Modelled from the spec: `read_secret(client, location)` — plaintext only
if `client` matches the targeted one; empty bytes when the vault or the
record is missing or the record is revoked. -/
def readSecret (sys : SystemState) (client : String) (loc : Location) : List Byte :=
  if client = sys.target then
    match lookupA sys.clients sys.target with
    | none => []
    | some cs =>
      match lookupA cs.vaults loc.vaultPath with
      | none => []
      | some recs =>
        match lookupA recs loc.key with
        | none => []
        | some (d, revoked) => if revoked then [] else d
  else []

/-- The addressed record of the currently targeted client, if any. -/
def recordState (sys : SystemState) (loc : Location) : Option (List Byte × Bool) :=
  match lookupA sys.clients sys.target with
  | none => none
  | some cs =>
    match lookupA cs.vaults loc.vaultPath with
    | none => none
    | some recs => lookupA recs loc.key

/-- The addressed record is absent, or present but revoked. -/
def missingOrRevoked (sys : SystemState) (loc : Location) : Bool :=
  match recordState sys loc with
  | none => true
  | some (_, revoked) => revoked

/-- Modelled from the spec: `delete_data(location, revoke)` — with `revoke`
the record is marked revoked (zeroization deferred to garbage collection),
otherwise it is dropped. -/
def deleteData (sys : SystemState) (loc : Location) (revoke : Bool) : SystemState :=
  match lookupA sys.clients sys.target with
  | none => sys
  | some cs =>
    match lookupA cs.vaults loc.vaultPath with
    | none => sys
    | some recs =>
      match lookupA recs loc.key with
      | none => sys
      | some (d, _) =>
        let recs' := if revoke then setA recs loc.key (d, true) else removeA recs loc.key
        { sys with
            clients := setA sys.clients sys.target
              { cs with vaults := setA cs.vaults loc.vaultPath recs' } }

/-- Modelled from the spec: `write_to_store`. -/
def writeToStore (sys : SystemState) (loc : Location) (data : List Byte) : SystemState :=
  let cs := (lookupA sys.clients sys.target).getD emptyClient
  { sys with clients := setA sys.clients sys.target { cs with store := setA cs.store loc data } }

/-- Modelled from the spec: `read_from_store` — empty bytes if absent. -/
def readFromStore (sys : SystemState) (loc : Location) : List Byte :=
  match lookupA sys.clients sys.target with
  | none => []
  | some cs => (lookupA cs.store loc).getD []

/-- Modelled from the spec: `delete_from_store`. -/
def deleteFromStore (sys : SystemState) (loc : Location) : SystemState :=
  match lookupA sys.clients sys.target with
  | none => sys
  | some cs =>
    { sys with clients := setA sys.clients sys.target { cs with store := removeA cs.store loc } }

/-- Modelled from the spec and the in-repo test `test_stronghold`: with the
flag `false` the client's vault data is wiped — every subsequent
`read_secret` yields empty bytes — while its store survives until an explicit
`delete_from_store` (the test still reads `"test"` from the store right after
the kill); with the flag `true` the actor is removed from the router. -/
def killStronghold (sys : SystemState) (clientPath : String) (killActor : Bool) : SystemState :=
  if killActor then { sys with clients := removeA sys.clients clientPath }
  else
    match lookupA sys.clients clientPath with
    | none => sys
    | some cs =>
      { sys with clients := setA sys.clients clientPath { cs with vaults := [] } }

/-! ## Snapshot synchronisation (modelled from the spec, section 4.4) -/

abbrev Snapshot := List (String × ClientState)

/-- Modelled from the spec: client-level merge with `A` winning; vaults (and
store keys) present only in `B` are added. -/
def mergeClientState (a b : ClientState) : ClientState :=
  { vaults := a.vaults ++ b.vaults.filter (fun vb => (lookupA a.vaults vb.1).isNone),
    store := a.store ++ b.store.filter (fun sb => (lookupA a.store sb.1).isNone) }

/-- Modelled from the spec: full synchronisation of snapshots `A` and `B` —
clients only in `A` kept, clients only in `B` copied, common clients merged
with `A` winning. -/
def synchronizeFull (A B : Snapshot) : Snapshot :=
  (A.map (fun ca =>
    match lookupA B ca.1 with
    | none => ca
    | some cb => (ca.1, mergeClientState ca.2 cb))) ++
  B.filter (fun cb => (lookupA A cb.1).isNone)

/-- Modelled from the spec: partial synchronisation — identical to full
except that entries of `B` whose client id is not in the caller-supplied
allow-list are dropped silently. -/
def synchronizePartial (A B : Snapshot) (allow : List String) : Snapshot :=
  synchronizeFull A (B.filter (fun cb => allow.contains cb.1))

/-- Does any client of the snapshot own a vault at this vault path? -/
def vaultExistsAnywhere (s : Snapshot) (vaultPath : String) : Bool :=
  s.any (fun cs => (lookupA cs.2.vaults vaultPath).isSome)

/-- A one-vault client state, as built by the synchronisation tests. -/
def oneVaultClient (vaultPath : String) (payload : List Byte) : ClientState :=
  ⟨[(vaultPath, [(Sum.inl "rec", (payload, false))])], []⟩

/-- Snapshot `A` of `test_partially_synchronize_snapshot`: four clients, each
with one vault `vault_a0 .. vault_a3`. -/
def snapA : Snapshot :=
  [("client_path0", oneVaultClient "vault_a0" [0]),
   ("client_path1", oneVaultClient "vault_a1" [1]),
   ("client_path2", oneVaultClient "vault_a2" [2]),
   ("client_path3", oneVaultClient "vault_a3" [3])]

/-- Snapshot `B` of `test_partially_synchronize_snapshot`: `client_path4`
owning `vault_b0` and `client_path5` owning `vault_b1`. -/
def snapB : Snapshot :=
  [("client_path4", oneVaultClient "vault_b0" [4]),
   ("client_path5", oneVaultClient "vault_b1" [5])]

/-! ## Association-list lemmas -/

theorem lookupA_setA_self {κ α : Type} [DecidableEq κ] (l : List (κ × α)) (k : κ) (v : α) :
    lookupA (setA l k v) k = some v := by
  induction l with
  | nil => simp [setA, lookupA]
  | cons hd tl ih =>
    obtain ⟨k', w⟩ := hd
    by_cases h : k' = k <;> simp [setA, lookupA, h, ih]

theorem lookupA_setA_ne {κ α : Type} [DecidableEq κ] (l : List (κ × α)) (k m : κ) (v : α)
    (h : m ≠ k) : lookupA (setA l k v) m = lookupA l m := by
  induction l with
  | nil => simp [setA, lookupA, Ne.symm h]
  | cons hd tl ih =>
    obtain ⟨k', w⟩ := hd
    by_cases hk : k' = k
    · subst hk
      simp [setA, lookupA, Ne.symm h]
    · simp [setA, lookupA, hk, ih]

theorem lookupA_removeA_self {κ α : Type} [DecidableEq κ] (l : List (κ × α)) (k : κ) :
    lookupA (removeA l k) k = none := by
  induction l with
  | nil => simp [removeA, lookupA]
  | cons hd tl ih =>
    obtain ⟨k', w⟩ := hd
    by_cases h : k' = k <;> simp [removeA, lookupA, h, ih]

theorem lookupA_removeA_ne {κ α : Type} [DecidableEq κ] (l : List (κ × α)) (k m : κ)
    (h : m ≠ k) : lookupA (removeA l k) m = lookupA l m := by
  induction l with
  | nil => simp [removeA, lookupA]
  | cons hd tl ih =>
    obtain ⟨k', w⟩ := hd
    by_cases hk : k' = k
    · subst hk
      simp [removeA, lookupA, Ne.symm h, ih]
    · simp [removeA, lookupA, hk, ih]

theorem setA_setA {κ α : Type} [DecidableEq κ] (l : List (κ × α)) (k : κ) (v w : α) :
    setA (setA l k v) k w = setA l k w := by
  induction l with
  | nil => simp [setA]
  | cons hd tl ih =>
    obtain ⟨k', u⟩ := hd
    by_cases h : k' = k
    · subst h; simp [setA]
    · simp [setA, h, ih]

theorem removeA_setA {κ α : Type} [DecidableEq κ] (l : List (κ × α)) (k : κ) (v : α) :
    removeA (setA l k v) k = removeA l k := by
  induction l with
  | nil => simp [setA, removeA]
  | cons hd tl ih =>
    obtain ⟨k', u⟩ := hd
    by_cases h : k' = k
    · subst h; simp [setA, removeA]
    · simp [setA, removeA, h, ih]

theorem lookupA_append_some {κ α : Type} [DecidableEq κ] (l1 l2 : List (κ × α)) (k : κ)
    (v : α) (h : lookupA l1 k = some v) : lookupA (l1 ++ l2) k = some v := by
  induction l1 with
  | nil => simp [lookupA] at h
  | cons hd tl ih =>
    obtain ⟨k', w⟩ := hd
    by_cases hk : k' = k
    · simp [lookupA, hk] at h ⊢; exact h
    · simp [lookupA, hk] at h ⊢; exact ih h

theorem lookupA_append_none {κ α : Type} [DecidableEq κ] (l1 l2 : List (κ × α)) (k : κ)
    (h : lookupA l1 k = none) : lookupA (l1 ++ l2) k = lookupA l2 k := by
  induction l1 with
  | nil => simp [lookupA]
  | cons hd tl ih =>
    obtain ⟨k', w⟩ := hd
    by_cases hk : k' = k
    · simp [lookupA, hk] at h
    · simp [lookupA, hk] at h ⊢; exact ih h

theorem lookupA_filter_key {α : Type} (B : List (String × α)) (f : String → Bool)
    (c : String) :
    lookupA (B.filter (fun p => f p.1)) c = if f c then lookupA B c else none := by
  induction B with
  | nil => simp [lookupA]
  | cons hd tl ih =>
    obtain ⟨k, v⟩ := hd
    by_cases hk : k = c
    · subst hk
      cases hf : f k <;> simp [List.filter_cons, hf, lookupA, ih]
    · cases hf : f k <;> simp [List.filter_cons, hf, lookupA, hk, ih]

/-! ## File-system lemmas -/

theorem findFile_setFile_self (fs : FS) (n : String) (st : FileState) :
    findFile (setFile fs n st) n = some st := lookupA_setA_self fs n st

theorem findFile_setFile_ne (fs : FS) (n m : String) (st : FileState) (h : m ≠ n) :
    findFile (setFile fs n st) m = findFile fs m := lookupA_setA_ne fs n m st h

theorem findFile_removeFile_self (fs : FS) (n : String) :
    findFile (removeFile fs n) n = none := lookupA_removeA_self fs n

theorem findFile_removeFile_ne (fs : FS) (n m : String) (h : m ≠ n) :
    findFile (removeFile fs n) m = findFile fs m := lookupA_removeA_ne fs n m h

theorem setFile_setFile (fs : FS) (n : String) (st st' : FileState) :
    setFile (setFile fs n st) n st' = setFile fs n st' := setA_setA fs n st st'

theorem removeFile_setFile (fs : FS) (n : String) (st : FileState) :
    removeFile (setFile fs n st) n = removeFile fs n := removeA_setA fs n st

/-! ## XOR-mask lemmas -/

theorem xorBytes_length (a b : List Byte) (s : Nat) : (xorBytes a b s).length = s := by
  simp [xorBytes]

theorem xorBytes_getD (a b : List Byte) (s i : Nat) (hi : i < s) :
    (xorBytes a b s).getD i 0 = a.getD i 0 ^^^ b.getD i 0 := by
  have hl : i < (xorBytes a b s).length := by rw [xorBytes_length]; exact hi
  rw [List.getD_eq_getElem _ _ hl]
  simp [xorBytes]

theorem xorBytes_cancel (p n : List Byte) (s : Nat) (hp : p.length = s) :
    xorBytes (xorBytes p n s) n s = p := by
  apply List.ext_getElem
  · rw [xorBytes_length, hp]
  · intro i h1 h2
    have hi : i < s := by rw [xorBytes_length] at h1; exact h1
    have hgd : (xorBytes (xorBytes p n s) n s).getD i 0 = p.getD i 0 := by
      rw [xorBytes_getD _ _ _ _ hi, xorBytes_getD _ _ _ _ hi, Nat.xor_assoc, Nat.xor_self,
        Nat.xor_zero]
    rw [List.getD_eq_getElem _ _ h1, List.getD_eq_getElem _ _ h2] at hgd
    exact hgd

theorem noise_zero_of_mask_fixed (p n : List Byte) (s : Nat) (hn : n.length = s)
    (h : xorBytes p n s = p) : n = List.replicate s 0 := by
  apply List.ext_getElem
  · rw [hn, List.length_replicate]
  · intro i h1 h2
    have hi : i < s := by rw [hn] at h1; exact h1
    have hgd : (xorBytes p n s).getD i 0 = p.getD i 0 := by rw [h]
    rw [xorBytes_getD _ _ _ _ hi] at hgd
    have hzero : n.getD i 0 = 0 := by
      calc n.getD i 0
          = p.getD i 0 ^^^ (p.getD i 0 ^^^ n.getD i 0) := by
            rw [← Nat.xor_assoc, Nat.xor_self, Nat.zero_xor]
        _ = p.getD i 0 ^^^ p.getD i 0 := by rw [hgd]
        _ = 0 := Nat.xor_self _
    rw [List.getD_eq_getElem _ _ h1] at hzero
    rw [hzero]
    simp

/-! ## `FileMemory` computation lemmas -/

theorem write_to_file_fresh (fm : FileMemory) (payload : List Byte) (fs : FS)
    (hf : findFile fs fm.fname = none) :
    fm.write_to_file payload fs = (.ok (), setFile fs fm.fname ⟨payload, 0⟩) := by
  simp [FileMemory.write_to_file, FileMemory.set_write_only, FileMemory.lock_file,
    setModeFS, createFile, writeAll, hf, findFile_setFile_self, setFile_setFile]

theorem alloc_fresh (payload : List Byte) (size : Nat) (noise : List Byte) (fname : String)
    (fs : FS) (hs : size ≠ 0) (hf : findFile fs fname = none) :
    FileMemory.alloc payload size noise fname fs =
      (.ok ⟨fname, noise, size⟩, setFile fs fname ⟨xorBytes payload noise size, 0⟩) := by
  have hw := write_to_file_fresh ⟨fname, noise, size⟩ (xorBytes payload noise size) fs hf
  simp [FileMemory.alloc, hs, hw]

theorem unlock_of_findFile (fm : FileMemory) (fs : FS) (c : List Byte) (m : Nat)
    (hs : fm.size ≠ 0) (h : findFile fs fm.fname = some ⟨c, m⟩) :
    fm.unlock fs = (.ok (Buffer.alloc (xorBytes c fm.noise fm.size) fm.size),
      setFile fs fm.fname ⟨c, 0⟩) := by
  simp [FileMemory.unlock, FileMemory.read_file, FileMemory.set_read_only,
    FileMemory.lock_file, setModeFS, openRead, h, hs, findFile_setFile_self,
    setFile_setFile, show canRead 0o400 = true from by decide]

theorem clear_delete_of_findFile (fm : FileMemory) (fs : FS) (st : FileState)
    (h : findFile fs fm.fname = some st) :
    fm.clear_and_delete_file fs = (.ok (), removeFile fs fm.fname) := by
  simp [FileMemory.clear_and_delete_file, FileMemory.set_write_only, setModeFS,
    createFile, writeAll, removeFileFS, h, findFile_setFile_self, setFile_setFile,
    removeFile_setFile, show canWrite 0o200 = true from by decide]

theorem zeroize_of_findFile (fm : FileMemory) (fs : FS) (st : FileState)
    (h : findFile fs fm.fname = some st) :
    fm.zeroize fs = (⟨"", fm.noise, 0⟩, removeFile fs fm.fname) := by
  simp [FileMemory.zeroize, clear_delete_of_findFile fm fs st h]

theorem zeroize_of_absent (fm : FileMemory) (fs : FS)
    (h : findFile fs fm.fname = none) :
    fm.zeroize fs = (⟨"", fm.noise, 0⟩, fs) := by
  simp [FileMemory.zeroize, FileMemory.clear_and_delete_file, FileMemory.set_write_only,
    setModeFS, h]

theorem zeroize_preserves_other (fm : FileMemory) (fs : FS) (m : String)
    (h : m ≠ fm.fname) : findFile (fm.zeroize fs).2 m = findFile fs m := by
  cases hf : findFile fs fm.fname with
  | none => rw [zeroize_of_absent fm fs hf]
  | some st =>
    rw [zeroize_of_findFile fm fs st hf]
    exact findFile_removeFile_ne fs fm.fname m h

theorem setModeFS_zero_locked (fs : FS) (name : String) (g : FS)
    (h : setModeFS fs name 0 = .ok g) : atRestLocked g name := by
  unfold setModeFS at h
  cases hf : findFile fs name with
  | none => rw [hf] at h; cases h
  | some st =>
    rw [hf] at h
    simp only at h
    cases h
    refine ⟨?_, ?_, ?_⟩
    · simp [findFile_setFile_self]
    · simp [openRead, findFile_setFile_self, show canRead 0 = false from by decide]
    · simp [createFile, findFile_setFile_self, show canWrite 0 = false from by decide]

theorem write_to_file_ok_locked (fm : FileMemory) (payload : List Byte) (fs g : FS)
    (u : Unit) (h : fm.write_to_file payload fs = (.ok u, g)) : atRestLocked g fm.fname := by
  unfold FileMemory.write_to_file at h
  split at h
  · simp only [] at h
    split at h
    · simp at h
    · split at h
      · simp at h
      · split at h
        · simp at h
        · rename_i fs4 heq
          have hg : fs4 = g := by injection h
          exact hg ▸ setModeFS_zero_locked _ _ fs4 heq
  · simp only [] at h
    split at h
    · simp at h
    · split at h
      · simp at h
      · split at h
        · simp at h
        · rename_i fs4 heq
          have hg : fs4 = g := by injection h
          exact hg ▸ setModeFS_zero_locked _ _ fs4 heq

theorem read_file_ok_locked (fm : FileMemory) (fs g : FS) (c : List Byte)
    (h : fm.read_file fs = (.ok c, g)) : atRestLocked g fm.fname := by
  unfold FileMemory.read_file at h
  split at h
  · cases h
  · split at h
    · cases h
    · split at h
      · cases h
      · rename_i fs2 heq
        have hg : fs2 = g := by injection h
        exact hg ▸ setModeFS_zero_locked _ _ fs2 heq

theorem alloc_ok_locked (payload : List Byte) (size : Nat) (noise : List Byte)
    (fname : String) (fs : FS) (fm : FileMemory) (g : FS)
    (h : FileMemory.alloc payload size noise fname fs = (.ok fm, g)) :
    fm = ⟨fname, noise, size⟩ ∧ atRestLocked g fname := by
  unfold FileMemory.alloc at h
  split at h
  · cases h
  · simp only [] at h
    split at h
    · rename_i fs' heq
      obtain ⟨h1, h2⟩ := Prod.mk.injEq .. ▸ h
      cases h1
      exact ⟨rfl, h2 ▸ write_to_file_ok_locked _ _ _ _ _ heq⟩
    · cases h

theorem unlock_ok_locked (fm : FileMemory) (fs : FS) (b : Buffer) (g : FS)
    (h : fm.unlock fs = (.ok b, g)) : atRestLocked g fm.fname := by
  unfold FileMemory.unlock at h
  split at h
  · cases h
  · split at h
    · cases h
    · rename_i data fs' heq
      have hg : fs' = g := by injection h
      exact hg ▸ read_file_ok_locked _ _ _ _ heq

/-! ## Claims about `FileMemory` -/

/-- C1: for every non-empty payload of matching size (with its random pad and
a fresh random file name), `FileMemory::alloc` succeeds and a following
`unlock` returns a `Buffer` whose bytes equal the original payload. -/
theorem alloc_unlock_roundtrip (payload noise : List Byte) (size : Nat) (fname : String)
    (fs : FS) (hs : size ≠ 0) (hp : payload.length = size) (hn : noise.length = size)
    (hf : findFile fs fname = none) :
    (FileMemory.alloc payload size noise fname fs).1 = .ok ⟨fname, noise, size⟩ ∧
    (FileMemory.unlock ⟨fname, noise, size⟩
        (FileMemory.alloc payload size noise fname fs).2).1 = .ok ⟨payload⟩ := by
  rw [alloc_fresh payload size noise fname fs hs hf]
  refine ⟨rfl, ?_⟩
  rw [unlock_of_findFile ⟨fname, noise, size⟩
    (setFile fs fname ⟨xorBytes payload noise size, 0⟩) (xorBytes payload noise size) 0 hs
    (findFile_setFile_self fs fname ⟨xorBytes payload noise size, 0⟩)]
  simp only [Buffer.alloc, xorBytes_cancel payload noise size hp]
  rw [← hp, List.take_length]

/-- C1 witness: round-trip at the concrete payload `[10, 20, 30]`. -/
theorem alloc_unlock_roundtrip_witness :
    (FileMemory.alloc [10, 20, 30] 3 [7, 7, 7] "f" []).1 = .ok ⟨"f", [7, 7, 7], 3⟩ ∧
    (FileMemory.unlock ⟨"f", [7, 7, 7], 3⟩
        (FileMemory.alloc [10, 20, 30] 3 [7, 7, 7] "f" []).2).1 = .ok ⟨[10, 20, 30]⟩ :=
  alloc_unlock_roundtrip [10, 20, 30] [7, 7, 7] 3 "f" [] (by decide) (by decide) (by decide)
    rfl

/-- C2: after `alloc`, the bytes on disk are the payload XOR-masked with the
instance's pad — they satisfy `d XOR noise = payload` — and they can equal the
plaintext only if the pad is all zeroes. -/
theorem alloc_file_is_masked (payload noise : List Byte) (size : Nat) (fname : String)
    (fs : FS) (hs : size ≠ 0) (hp : payload.length = size) (hn : noise.length = size)
    (hf : findFile fs fname = none) :
    findFile (FileMemory.alloc payload size noise fname fs).2 fname =
      some ⟨xorBytes payload noise size, 0⟩ ∧
    xorBytes (xorBytes payload noise size) noise size = payload ∧
    (xorBytes payload noise size = payload → noise = List.replicate size 0) := by
  rw [alloc_fresh payload size noise fname fs hs hf]
  exact ⟨findFile_setFile_self fs fname ⟨xorBytes payload noise size, 0⟩,
    xorBytes_cancel payload noise size hp,
    fun h => noise_zero_of_mask_fixed payload noise size hn h⟩

/-- C2 witness: the masked file at the concrete payload `[1, 2, 3]` and pad
`[7, 0, 9]`. -/
theorem alloc_file_is_masked_witness :
    findFile (FileMemory.alloc [1, 2, 3] 3 [7, 0, 9] "f" []).2 "f" =
      some ⟨xorBytes [1, 2, 3] [7, 0, 9] 3, 0⟩ ∧
    xorBytes (xorBytes [1, 2, 3] [7, 0, 9] 3) [7, 0, 9] 3 = [1, 2, 3] ∧
    (xorBytes [1, 2, 3] [7, 0, 9] 3 = [1, 2, 3] → [7, 0, 9] = List.replicate 3 0) :=
  alloc_file_is_masked [1, 2, 3] [7, 0, 9] 3 "f" [] (by decide) (by decide) (by decide) rfl

/-- C3 counterexample: `zeroize` leaves the `noise` pad intact, so not all
in-memory fields read as zero/empty after dropping; at the concrete instance
with pad `[5, 5, 5]` the pad still reads `[5, 5, 5]`. -/
theorem zeroize_noise_cex :
    ((FileMemory.zeroize ⟨"f", [5, 5, 5], 3⟩ (setFile [] "f" ⟨[1, 2, 3], 0⟩)).1).noise =
      [5, 5, 5] ∧
    ([5, 5, 5] : List Byte) ≠ List.replicate 3 0 ∧ ([5, 5, 5] : List Byte) ≠ [] :=
  ⟨by decide, by decide, by decide⟩

/-- C3 amended: after `zeroize` the backing file is absent from disk, the file
name reads empty and the size reads zero, and zeroizing again changes nothing
(idempotence); the noise pad, however, retains its previous value. -/
theorem zeroize_scrubs (fm : FileMemory) (fs : FS) (st : FileState)
    (h : findFile fs fm.fname = some st) (hne : fm.fname ≠ "")
    (hr : findFile fs "" = none) :
    findFile (fm.zeroize fs).2 fm.fname = none ∧
    (fm.zeroize fs).1.fname = "" ∧
    (fm.zeroize fs).1.size = 0 ∧
    (fm.zeroize fs).1.noise = fm.noise ∧
    FileMemory.zeroize (fm.zeroize fs).1 (fm.zeroize fs).2 = fm.zeroize fs := by
  have hz := zeroize_of_findFile fm fs st h
  rw [hz]
  refine ⟨findFile_removeFile_self fs fm.fname, rfl, rfl, rfl, ?_⟩
  have h2 : findFile (removeFile fs fm.fname) "" = none := by
    rw [findFile_removeFile_ne fs fm.fname "" (Ne.symm hne)]
    exact hr
  exact zeroize_of_absent ⟨"", fm.noise, 0⟩ (removeFile fs fm.fname) h2

/-- C3 amended witness: scrubbing at a concrete one-byte instance. -/
theorem zeroize_scrubs_witness :
    findFile (FileMemory.zeroize ⟨"f", [5], 1⟩ [("f", ⟨[9], 0⟩)]).2 "f" = none ∧
    (FileMemory.zeroize ⟨"f", [5], 1⟩ [("f", ⟨[9], 0⟩)]).1.fname = "" ∧
    (FileMemory.zeroize ⟨"f", [5], 1⟩ [("f", ⟨[9], 0⟩)]).1.size = 0 ∧
    (FileMemory.zeroize ⟨"f", [5], 1⟩ [("f", ⟨[9], 0⟩)]).1.noise = [5] ∧
    FileMemory.zeroize (FileMemory.zeroize ⟨"f", [5], 1⟩ [("f", ⟨[9], 0⟩)]).1
        (FileMemory.zeroize ⟨"f", [5], 1⟩ [("f", ⟨[9], 0⟩)]).2 =
      FileMemory.zeroize ⟨"f", [5], 1⟩ [("f", ⟨[9], 0⟩)] :=
  zeroize_scrubs ⟨"f", [5], 1⟩ [("f", ⟨[9], 0⟩)] ⟨[9], 0⟩ rfl (by decide) rfl

/-- C4: `update` replaces rather than mutates — with a fresh file name for the
replacement, it succeeds, unlocking the result yields the new payload, and the
file that backed the old memory is gone from disk. -/
theorem update_replaces (fm : FileMemory) (st : FileState) (payload : Buffer) (size : Nat)
    (noise' : List Byte) (fname' : String) (fs : FS)
    (hlive : findFile fs fm.fname = some st)
    (hfresh : findFile fs fname' = none)
    (hne : fname' ≠ fm.fname)
    (hs : size ≠ 0) (hp : payload.bytes.length = size) (hn : noise'.length = size) :
    (fm.update payload size noise' fname' fs).1 = .ok ⟨fname', noise', size⟩ ∧
    (FileMemory.unlock ⟨fname', noise', size⟩
        (fm.update payload size noise' fname' fs).2).1 = .ok payload ∧
    findFile (fm.update payload size noise' fname' fs).2 fm.fname = none := by
  have ha := alloc_fresh payload.bytes size noise' fname' fs hs hfresh
  have h1 : findFile (setFile fs fname' ⟨xorBytes payload.bytes noise' size, 0⟩) fm.fname =
      some st := by
    rw [findFile_setFile_ne fs fname' fm.fname _ (Ne.symm hne)]
    exact hlive
  have hz := zeroize_of_findFile fm _ st h1
  have hupd : fm.update payload size noise' fname' fs =
      (.ok ⟨fname', noise', size⟩,
        removeFile (setFile fs fname' ⟨xorBytes payload.bytes noise' size, 0⟩) fm.fname) := by
    simp [FileMemory.update, ha, hz]
  rw [hupd]
  refine ⟨rfl, ?_, findFile_removeFile_self _ fm.fname⟩
  have h2 : findFile
      (removeFile (setFile fs fname' ⟨xorBytes payload.bytes noise' size, 0⟩) fm.fname)
      fname' = some ⟨xorBytes payload.bytes noise' size, 0⟩ := by
    rw [findFile_removeFile_ne _ fm.fname fname' hne, findFile_setFile_self]
  rw [unlock_of_findFile ⟨fname', noise', size⟩ _ _ 0 hs h2]
  simp only [Buffer.alloc, xorBytes_cancel payload.bytes noise' size hp]
  rw [← hp, List.take_length]

/-- C4 witness: replacement at a concrete two-byte payload. -/
theorem update_replaces_witness :
    (FileMemory.update ⟨"old", [1], 1⟩ ⟨[4, 5]⟩ 2 [3, 3] "new" [("old", ⟨[9], 0⟩)]).1 =
      .ok ⟨"new", [3, 3], 2⟩ ∧
    (FileMemory.unlock ⟨"new", [3, 3], 2⟩
        (FileMemory.update ⟨"old", [1], 1⟩ ⟨[4, 5]⟩ 2 [3, 3] "new"
          [("old", ⟨[9], 0⟩)]).2).1 = .ok ⟨[4, 5]⟩ ∧
    findFile (FileMemory.update ⟨"old", [1], 1⟩ ⟨[4, 5]⟩ 2 [3, 3] "new"
        [("old", ⟨[9], 0⟩)]).2 "old" = none :=
  update_replaces ⟨"old", [1], 1⟩ ⟨[9], 0⟩ ⟨[4, 5]⟩ 2 [3, 3] "new" [("old", ⟨[9], 0⟩)]
    rfl rfl (by decide) (by decide) (by decide) (by decide)

/-- C7: allocation with size zero fails with `ZeroSizedNotAllowed` for every
payload and leaves the file system untouched — no backing file is created. -/
theorem alloc_zero_size (payload noise : List Byte) (fname : String) (fs : FS) :
    FileMemory.alloc payload 0 noise fname fs = (.error .ZeroSizedNotAllowed, fs) := by
  simp [FileMemory.alloc]

theorem atRestLocked_of_mode (fs : FS) (name : String)
    (h : (findFile fs name).map FileState.mode = some 0) : atRestLocked fs name := by
  cases hf : findFile fs name with
  | none => rw [hf] at h; cases h
  | some st =>
    rw [hf] at h
    rw [show (some st).map FileState.mode = some st.mode from rfl] at h
    injection h with h
    refine ⟨by rw [hf]; simp [h], ?_, ?_⟩
    · simp [openRead, hf, h, show canRead 0 = false from by decide]
    · simp [createFile, hf, h, show canWrite 0 = false from by decide]

theorem atRestLocked_congr (fs g : FS) (name : String)
    (h : findFile g name = findFile fs name) (hl : atRestLocked fs name) :
    atRestLocked g name := by
  apply atRestLocked_of_mode
  rw [h]
  exact hl.1

/-- C8: between operations the backing file of a live `FileMemory` is at
permission mode `0o000` — `alloc`, `unlock` and `update` (the latter under a
replacement name distinct from the old one) each return with the file locked,
so opening it for read or for write fails with `PermissionDenied`. -/
theorem file_locked_between_operations (payload : List Byte) (size : Nat)
    (noise : List Byte) (fname : String) (fs : FS) (fm : FileMemory)
    (payload' : Buffer) (size' : Nat) (noise' : List Byte) (fname' : String) :
    ((FileMemory.alloc payload size noise fname fs).1.isOk = true →
      atRestLocked (FileMemory.alloc payload size noise fname fs).2 fname) ∧
    ((fm.unlock fs).1.isOk = true → atRestLocked (fm.unlock fs).2 fm.fname) ∧
    (fm.fname ≠ fname' → (fm.update payload' size' noise' fname' fs).1.isOk = true →
      atRestLocked (fm.update payload' size' noise' fname' fs).2 fname') := by
  refine ⟨?_, ?_, ?_⟩
  · intro h
    rcases ha : FileMemory.alloc payload size noise fname fs with ⟨r, g⟩
    rw [ha] at h
    cases r with
    | error e => simp [Except.isOk, Except.toBool] at h
    | ok fm1 => exact (alloc_ok_locked _ _ _ _ _ _ _ ha).2
  · intro h
    rcases hu : fm.unlock fs with ⟨r, g⟩
    rw [hu] at h
    cases r with
    | error e => simp [Except.isOk, Except.toBool] at h
    | ok b => exact unlock_ok_locked _ _ _ _ hu
  · intro hne h
    rcases ha : FileMemory.alloc payload'.bytes size' noise' fname' fs with ⟨r, fs1⟩
    have hupd : fm.update payload' size' noise' fname' fs = (r, (fm.zeroize fs1).2) := by
      simp [FileMemory.update, ha]
    rw [hupd] at h ⊢
    cases r with
    | error e => simp [Except.isOk, Except.toBool] at h
    | ok fm1 =>
      obtain ⟨hfm, hlock⟩ := alloc_ok_locked _ _ _ _ _ _ _ ha
      exact atRestLocked_congr fs1 (fm.zeroize fs1).2 fname'
        (zeroize_preserves_other fm fs1 fname' (Ne.symm hne)) hlock

/-- C8 witness: the lock is in force after a concrete alloc, unlock and
update. -/
theorem file_locked_between_operations_witness :
    atRestLocked (FileMemory.alloc [1, 2] 2 [3, 4] "f" []).2 "f" ∧
    atRestLocked
      (FileMemory.unlock ⟨"f", [3, 4], 2⟩ (FileMemory.alloc [1, 2] 2 [3, 4] "f" []).2).2
      "f" ∧
    atRestLocked
      (FileMemory.update ⟨"f", [3, 4], 2⟩ ⟨[5]⟩ 1 [6] "g"
        (FileMemory.alloc [1, 2] 2 [3, 4] "f" []).2).2 "g" :=
  ⟨(file_locked_between_operations [1, 2] 2 [3, 4] "f" [] ⟨"", [], 0⟩ ⟨[]⟩ 0 [] "").1
      (by decide),
   (file_locked_between_operations [] 0 [] "" (FileMemory.alloc [1, 2] 2 [3, 4] "f" []).2
      ⟨"f", [3, 4], 2⟩ ⟨[]⟩ 0 [] "").2.1 (by decide),
   (file_locked_between_operations [] 0 [] "" (FileMemory.alloc [1, 2] 2 [3, 4] "f" []).2
      ⟨"f", [3, 4], 2⟩ ⟨[5]⟩ 1 [6] "g").2.2 (by decide) (by decide)⟩

/-- C10: `update` is not atomic on error — updating with size zero returns
`ZeroSizedNotAllowed`, yet the old backing file is deleted anyway, destroying
the stored secret. -/
theorem update_zero_size_destroys (fm : FileMemory) (fs : FS) (st : FileState)
    (payload : Buffer) (noise : List Byte) (fname : String)
    (h : findFile fs fm.fname = some st) :
    (fm.update payload 0 noise fname fs).1 = .error .ZeroSizedNotAllowed ∧
    findFile (fm.update payload 0 noise fname fs).2 fm.fname = none := by
  have hz := zeroize_of_findFile fm fs st h
  constructor
  · simp [FileMemory.update, FileMemory.alloc]
  · simp [FileMemory.update, FileMemory.alloc, hz, findFile_removeFile_self]

/-- C10 witness: destroying a concrete one-byte store through a failing
update. -/
theorem update_zero_size_destroys_witness :
    (FileMemory.update ⟨"f", [1], 1⟩ ⟨[2]⟩ 0 [] "g" [("f", ⟨[9], 0⟩)]).1 =
      .error .ZeroSizedNotAllowed ∧
    findFile (FileMemory.update ⟨"f", [1], 1⟩ ⟨[2]⟩ 0 [] "g" [("f", ⟨[9], 0⟩)]).2 "f" =
      none :=
  update_zero_size_destroys ⟨"f", [1], 1⟩ [("f", ⟨[9], 0⟩)] ⟨[9], 0⟩ ⟨[2]⟩ [] "g" rfl

/-! ## Client-layer lemmas -/

theorem readSecret_eq (sys : SystemState) (client : String) (loc : Location) :
    readSecret sys client loc =
      if client = sys.target then
        match recordState sys loc with
        | none => []
        | some (d, revoked) => if revoked then [] else d
      else [] := by
  unfold readSecret recordState
  by_cases hc : client = sys.target
  · rw [if_pos hc, if_pos hc]
    cases h1 : lookupA sys.clients sys.target with
    | none => rfl
    | some cs =>
      dsimp only
      cases h2 : lookupA cs.vaults loc.vaultPath with
      | none => rfl
      | some recs => rfl
  · rw [if_neg hc, if_neg hc]

theorem delete_marks_revoked (sys : SystemState) (loc : Location) :
    missingOrRevoked (deleteData sys loc true) loc = true := by
  unfold deleteData
  cases h1 : lookupA sys.clients sys.target with
  | none => simp [missingOrRevoked, recordState, h1]
  | some cs =>
    cases h2 : lookupA cs.vaults loc.vaultPath with
    | none => simp [missingOrRevoked, recordState, h1, h2]
    | some recs =>
      cases h3 : lookupA recs loc.key with
      | none => simp [missingOrRevoked, recordState, h1, h2, h3]
      | some p =>
        obtain ⟨d, rev⟩ := p
        simp [missingOrRevoked, recordState, h1, h2, h3, lookupA_setA_self]

theorem kill_false_eq (sys : SystemState) (clientPath : String) :
    killStronghold sys clientPath false =
      match lookupA sys.clients clientPath with
      | none => sys
      | some cs =>
        { sys with clients := setA sys.clients clientPath { cs with vaults := [] } } := rfl

theorem kill_false_reads_empty (sys : SystemState) (clientPath : String) (loc : Location) :
    readSecret (killStronghold sys clientPath false) clientPath loc = [] := by
  rw [kill_false_eq]
  cases hcs : lookupA sys.clients clientPath with
  | none =>
    rw [readSecret_eq]
    by_cases hc : clientPath = sys.target
    · rw [if_pos hc]
      have hrec : recordState sys loc = none := by
        unfold recordState
        rw [← hc, hcs]

      rw [hrec]
    · rw [if_neg hc]
  | some cs =>
    rw [readSecret_eq]
    by_cases hc : clientPath = sys.target
    · rw [if_pos (show clientPath =
        ({ sys with clients := setA sys.clients clientPath { cs with vaults := [] } } :
          SystemState).target from hc)]
      have hrec : recordState
          { sys with clients := setA sys.clients clientPath { cs with vaults := [] } } loc =
          none := by
        unfold recordState
        rw [show ({ sys with
            clients := setA sys.clients clientPath { cs with vaults := [] } } :
          SystemState).target = sys.target from rfl, ← hc, lookupA_setA_self]
        rfl
      rw [hrec]
    · rw [if_neg (show ¬ clientPath =
        ({ sys with clients := setA sys.clients clientPath { cs with vaults := [] } } :
          SystemState).target from hc)]

theorem kill_false_store_preserved (sys : SystemState) (clientPath : String)
    (sloc : Location) :
    readFromStore (killStronghold sys clientPath false) sloc = readFromStore sys sloc := by
  rw [kill_false_eq]
  cases hcs : lookupA sys.clients clientPath with
  | none => rfl
  | some cs =>
    unfold readFromStore
    rw [show ({ sys with
        clients := setA sys.clients clientPath { cs with vaults := [] } } :
      SystemState).target = sys.target from rfl]
    by_cases hc : sys.target = clientPath
    · rw [hc, lookupA_setA_self, hcs]
    · rw [lookupA_setA_ne sys.clients clientPath sys.target _ hc]

theorem deleteFromStore_reads_empty (sys : SystemState) (sloc : Location) :
    readFromStore (deleteFromStore sys sloc) sloc = [] := by
  unfold deleteFromStore
  cases hcs : lookupA sys.clients sys.target with
  | none => unfold readFromStore; rw [hcs]
  | some cs =>
    unfold readFromStore
    rw [show ({ sys with
        clients := setA sys.clients sys.target { cs with store := removeA cs.store sloc } } :
      SystemState).target = sys.target from rfl, lookupA_setA_self]
    simp [lookupA_removeA_self]

/-! ## Synchroniser lemmas -/

theorem lookupA_map_merge (A B : Snapshot) (c : String) :
    lookupA (A.map (fun ca =>
      match lookupA B ca.1 with
      | none => ca
      | some cb => (ca.1, mergeClientState ca.2 cb))) c =
    (lookupA A c).map (fun v =>
      match lookupA B c with
      | none => v
      | some cb => mergeClientState v cb) := by
  induction A with
  | nil => rfl
  | cons hd tl ih =>
    obtain ⟨k, v⟩ := hd
    by_cases hk : k = c
    · subst hk
      cases hB : lookupA B k with
      | none => simp [lookupA, hB]
      | some cb => simp [lookupA, hB]
    · cases hB : lookupA B k with
      | none => simp [List.map_cons, lookupA, hB, hk, ih]
      | some cb => simp [List.map_cons, lookupA, hB, hk, ih]

theorem lookupA_syncFull (A B : Snapshot) (c : String) :
    lookupA (synchronizeFull A B) c =
      match lookupA A c, lookupA B c with
      | some a, some b => some (mergeClientState a b)
      | some a, none => some a
      | none, _ => lookupA B c := by
  unfold synchronizeFull
  cases hA : lookupA A c with
  | some a =>
    have hm := lookupA_map_merge A B c
    rw [hA] at hm
    rw [lookupA_append_some _ _ _ _ hm]
    cases hB : lookupA B c <;> simp [hB]
  | none =>
    have hm := lookupA_map_merge A B c
    rw [hA] at hm
    rw [lookupA_append_none _ _ _ hm]
    rw [lookupA_filter_key B (fun k => (lookupA A k).isNone) c, hA]
    simp

/-! ## Claims about the client layer -/

/-- C9: `read_secret` returns plaintext only when the given client matches
the targeted one, returns empty bytes when the addressed record is missing or
revoked, and after `delete_data(location, revoke := true)` a re-read of that
location returns the empty byte string. -/
theorem read_secret_guarded (sys : SystemState) (client : String) (loc : Location) :
    (client ≠ sys.target → readSecret sys client loc = []) ∧
    (missingOrRevoked sys loc = true → readSecret sys client loc = []) ∧
    readSecret (deleteData sys loc true) client loc = [] := by
  refine ⟨?_, ?_, ?_⟩
  · intro h
    rw [readSecret_eq, if_neg h]
  · intro h
    rw [readSecret_eq]
    by_cases hc : client = sys.target
    · rw [if_pos hc]
      unfold missingOrRevoked at h
      cases hr : recordState sys loc with
      | none => rfl
      | some p =>
        obtain ⟨d, rev⟩ := p
        rw [hr] at h
        simp only at h
        rw [h]
        rfl
    · rw [if_neg hc]
  · rw [readSecret_eq]
    by_cases hc : client = (deleteData sys loc true).target
    · rw [if_pos hc]
      have h := delete_marks_revoked sys loc
      unfold missingOrRevoked at h
      cases hr : recordState (deleteData sys loc true) loc with
      | none => rfl
      | some p =>
        obtain ⟨d, rev⟩ := p
        rw [hr] at h
        simp only at h
        rw [h]
        rfl
    · rw [if_neg hc]

/-- C9 witness: a mismatched client, a missing record, and a revoked record
all read as empty bytes on a concrete one-record system. -/
theorem read_secret_guarded_witness :
    readSecret (writeToVault (initSystem "test") (.counter "path" 0) [7]) "other"
      (.counter "path" 0) = [] ∧
    readSecret (writeToVault (initSystem "test") (.counter "path" 0) [7]) "test"
      (.counter "path" 1) = [] ∧
    readSecret (deleteData (writeToVault (initSystem "test") (.counter "path" 0) [7])
      (.counter "path" 0) true) "test" (.counter "path" 0) = [] :=
  ⟨(read_secret_guarded (writeToVault (initSystem "test") (.counter "path" 0) [7]) "other"
      (.counter "path" 0)).1 (by decide),
   (read_secret_guarded (writeToVault (initSystem "test") (.counter "path" 0) [7]) "test"
      (.counter "path" 1)).2.1 (by decide),
   (read_secret_guarded (writeToVault (initSystem "test") (.counter "path" 0) [7]) "test"
      (.counter "path" 0)).2.2⟩

/-- C5 counterexample: replaying the trace of `test_stronghold` — after
`kill_stronghold(client, false)` a `read_from_store` for the prior store
location still returns the stored bytes `[116, 101, 115, 116]` (`"test"`),
not the empty byte string the claim asserts. -/
theorem kill_keeps_store_cex :
    readFromStore
        (killStronghold
          (writeToStore (writeToVault (initSystem "test") (.counter "path" 0) [1])
            (.generic "some" "path") [116, 101, 115, 116])
          "test" false)
        (.generic "some" "path") = [116, 101, 115, 116] ∧
    ([116, 101, 115, 116] : List Byte) ≠ [] :=
  ⟨by decide, by decide⟩

/-- C5 amended: after `kill_stronghold(client, persist = false)` every
subsequent `read_secret` for a prior Location of that client returns empty
bytes; the store, however, is untouched by the kill — `read_from_store`
returns exactly what it returned before — and only an explicit
`delete_from_store` makes the store location read as empty bytes. -/
theorem kill_wipes_vault_keeps_store (sys : SystemState) (clientPath : String)
    (loc sloc : Location) :
    readSecret (killStronghold sys clientPath false) clientPath loc = [] ∧
    readFromStore (killStronghold sys clientPath false) sloc = readFromStore sys sloc ∧
    readFromStore (deleteFromStore (killStronghold sys clientPath false) sloc) sloc = [] :=
  ⟨kill_false_reads_empty sys clientPath loc,
   kill_false_store_preserved sys clientPath sloc,
   deleteFromStore_reads_empty (killStronghold sys clientPath false) sloc⟩

/-- C6: partial synchronisation drops every entry of `B` whose client id is
not in the allow-list (the destination then holds exactly `A`'s entry for that
id) and keeps every allowed entry of `B`; concretely, on the
`test_partially_synchronize_snapshot` snapshots with allow-list
`{client_path5}`, the vault `vault_b0` (stored under `client_path4` in `B`) is
absent from the destination while `vault_b1` (under `client_path5`) is
present. -/
theorem synchronizePartial_allowlist (A B : Snapshot) (allow : List String) (c : String) :
    (allow.contains c = false →
      lookupA (synchronizePartial A B allow) c = lookupA A c) ∧
    (allow.contains c = true → (lookupA B c).isSome = true →
      (lookupA (synchronizePartial A B allow) c).isSome = true) ∧
    vaultExistsAnywhere (synchronizePartial snapA snapB ["client_path5"]) "vault_b0" =
      false ∧
    vaultExistsAnywhere (synchronizePartial snapA snapB ["client_path5"]) "vault_b1" =
      true := by
  refine ⟨?_, ?_, by decide, by decide⟩
  · intro h
    unfold synchronizePartial
    rw [lookupA_syncFull]
    have hbf : lookupA (B.filter (fun cb => allow.contains cb.1)) c = none := by
      rw [lookupA_filter_key B (fun k => allow.contains k) c, h]
      rfl
    rw [hbf]
    cases hA : lookupA A c <;> rfl
  · intro h hB
    unfold synchronizePartial
    rw [lookupA_syncFull]
    have hbf : lookupA (B.filter (fun cb => allow.contains cb.1)) c = lookupA B c := by
      rw [lookupA_filter_key B (fun k => allow.contains k) c, h]
      rfl
    rw [hbf]
    cases hBc : lookupA B c with
    | none => rw [hBc] at hB; cases hB
    | some b => cases hA : lookupA A c <;> simp [hBc]

/-- C6 witness: on the concrete test snapshots, `client_path4` is absent from
the destination and `client_path5` is present. -/
theorem synchronizePartial_allowlist_witness :
    lookupA (synchronizePartial snapA snapB ["client_path5"]) "client_path4" = none ∧
    (lookupA (synchronizePartial snapA snapB ["client_path5"]) "client_path5").isSome =
      true := by
  constructor
  · have h := (synchronizePartial_allowlist snapA snapB ["client_path5"] "client_path4").1
      (by decide)
    rw [h]
    decide
  · exact (synchronizePartial_allowlist snapA snapB ["client_path5"] "client_path5").2.1
      (by decide) (by decide)

end Stronghold
